import Mathlib

/-!
Shallow embedding of `HCDevice.py` (jamesremuscat/hcpy): the Home Connect
websocket session handler.  Python's dynamically typed JSON-ish values are
modelled by `PyVal`; Python exceptions by `PyErr`; the mutable `HCDevice`
object by the explicit state record `HCState`.  Each Lean definition below
is a direct transcription of the correspondingly named Python method.
-/

namespace HC

/-- A Python/JSON value as it occurs in the message payloads handled by
`HCDevice`.  Note that Python `bool` is a subclass of `int`, which is why
`pyIsInt` below also accepts `vBool`. -/
inductive PyVal where
  | vInt : Int → PyVal
  | vBool : Bool → PyVal
  | vStr : String → PyVal
  | vNone : PyVal
  | vList : List PyVal → PyVal
  | vDict : List (String × PyVal) → PyVal
deriving Repr

/-- The kinds of Python exceptions that the transcribed code can raise.
`exc` is a plain `Exception(msg)` carrying a human-readable reason (used by
`test_feature`); `keyError` is a `KeyError` from a failed dict lookup. -/
inductive PyErr where
  | exc : String → PyErr
  | typeError : String → PyErr
  | valueError : String → PyErr
  | keyError : String → PyErr
  | indexError : String → PyErr
deriving Repr, DecidableEq

/-- A feature-catalog descriptor (one entry of the `features` mapping that is
loaded from `devices.json` and handed to `HCDevice.__init__`).  Optional dict
keys of the Python descriptor become `Option` fields; the numeric `min`/`max`
entries are modelled after the `int(...)` conversion the code applies. -/
structure Feature where
  name : String
  access : Option String
  values : Option (List (String × String))
  min : Option Int
  max : Option Int
deriving Repr

/-- Python `str(v)`.  Scalars are rendered exactly as Python renders them;
for containers (which never match the numeric-string enumeration keys the
code compares against) a fixed placeholder is used. -/
def pyStr : PyVal → String
  | .vInt n => toString n
  | .vBool b => if b then "True" else "False"
  | .vStr s => s
  | .vNone => "None"
  | .vList _ => "[...]"
  | .vDict _ => "\x7b...\x7d"

/-- Python `isinstance(v, int)`: true for `int` and for `bool` (a subclass
of `int`). -/
def pyIsInt : PyVal → Bool
  | .vInt _ => true
  | .vBool _ => true
  | _ => false

/-- The integer a Python `int`-typed value (including `bool`) compares as. -/
def pyIntVal : PyVal → Option Int
  | .vInt n => some n
  | .vBool b => some (if b then 1 else 0)
  | _ => none

/-- Python `v += 1` on the `tx_msg_id` slot: defined for `int`/`bool`,
a `TypeError` otherwise (in particular for `None`). -/
def pyAdd1 : PyVal → Except PyErr PyVal
  | .vInt n => .ok (.vInt (n + 1))
  | .vBool b => .ok (.vInt ((if b then 1 else 0) + 1))
  | _ => .error (.typeError "unsupported operand type(s) for +=")

/-- Python `v == s` for a string literal `s`: only a `str` can compare
equal to a string. -/
def pyEqStr (v : PyVal) (s : String) : Bool :=
  match v with
  | .vStr t => t == s
  | _ => false

/-- Does list `l` of characters start with `pat`? -/
def listStartsWith : List Char → List Char → Bool
  | [], _ => true
  | _ :: _, [] => false
  | c :: cs, d :: ds => c == d && listStartsWith cs ds

/-- Is `pat` a contiguous sublist of `l`? -/
def listContains (pat : List Char) : List Char → Bool
  | [] => pat.isEmpty
  | c :: rest => listStartsWith pat (c :: rest) || listContains pat rest

/-- Python `pat in s` on strings: substring containment. -/
def strContains (s pat : String) : Bool :=
  listContains pat.toList s.toList

/-- Python `key in v`: key test on dicts, element test on lists, substring
test on strings, `TypeError` on the remaining types. -/
def pyContains (v : PyVal) (key : String) : Except PyErr Bool :=
  match v with
  | .vDict kvs => .ok (List.lookup key kvs).isSome
  | .vList l => .ok (l.any (fun x => pyEqStr x key))
  | .vStr s => .ok (strContains s key)
  | _ => .error (.typeError "argument of type is not iterable")

/-- Python `v[key]` for a string key: dict lookup (raising `KeyError` when
the key is absent), `TypeError` on every other type. -/
def pyGetItem (v : PyVal) (key : String) : Except PyErr PyVal :=
  match v with
  | .vDict kvs =>
    match List.lookup key kvs with
    | some x => .ok x
    | none => .error (.keyError key)
  | .vList _ => .error (.typeError "list indices must be integers or slices, not str")
  | .vStr _ => .error (.typeError "string indices must be integers")
  | _ => .error (.typeError "object is not subscriptable")

/-- `data = [data]` coercion in `HCDevice.get`: a non-list payload is
wrapped into a singleton list. -/
def pyAsList (v : PyVal) : List PyVal :=
  match v with
  | .vList l => l
  | _ => [v]

/-- Python `resource.split("/")`: split on every slash, keeping empty
segments (`"/ci/info"` gives `["", "ci", "info"]`). -/
def splitOnSlash (s : String) : List String :=
  (splitCharAux s.toList).map (fun l => ⟨l⟩)
where
  splitCharAux : List Char → List (List Char)
    | [] => [[]]
    | c :: rest =>
      if c == '/' then [] :: splitCharAux rest
      else
        match splitCharAux rest with
        | [] => [[c]]
        | seg :: segs => (c :: seg) :: segs

/-- ASCII lower-casing of one character; Python's `str.lower` restricted to
the ASCII range in which all catalog `access` strings live. -/
def asciiLower (c : Char) : Char :=
  if 'A' ≤ c ∧ c ≤ 'Z' then Char.ofNat (c.toNat + 32) else c

/-- Python `s.lower()` (ASCII). -/
def strLower (s : String) : String := ⟨s.toList.map asciiLower⟩

/-- `re.sub(r"^.*\.", "", name)`: the leading `.*` is greedy, so the
substitution strips everything up to and including the last dot, keeping
only the final path segment (a string with no dot is unchanged). -/
def trimName (s : String) : String :=
  ⟨(s.toList.reverse.takeWhile (fun c => c ≠ '.')).reverse⟩

/-- Python dict assignment `d[k] = v` on an insertion-ordered dict: replace
the value of an existing key in place, otherwise append. -/
def insertAssoc (k : String) (v : α) : List (String × α) → List (String × α)
  | [] => [(k, v)]
  | (k', v') :: rest =>
    if k' == k then (k, v) :: rest else (k', v') :: insertAssoc k v rest

/-- `re.sub(r"=", "", token)`: remove every padding character. -/
def stripEquals (s : String) : String := ⟨s.toList.filter (fun c => c ≠ '=')⟩

/-- One iteration of the loop body of `HCDevice.test_feature` (lines
136-199): validate a single record of a `/ro/values` write batch against the
feature catalog, producing the first raised exception or `()`. -/
def test_feature_one (features : List (String × Feature)) (d : PyVal) :
    Except PyErr Unit :=
  match pyContains d "uid" with
  | .error e => .error e
  | .ok false => .error (.exc "Unable to configure appliance. UID is required.")
  | .ok true =>
    match pyGetItem d "uid" with
    | .error e => .error e
    | .ok u =>
      if pyIsInt u = false then
        .error (.exc "Unable to configure appliance. UID must be an integer.")
      else
        match pyContains d "value" with
        | .error e => .error e
        | .ok false => .error (.exc "Unable to configure appliance. Value is required.")
        | .ok true =>
          let uid := pyStr u
          match List.lookup uid features with
          | none =>
            .error (.exc ("Unable to configure appliance. UID " ++ uid ++ " is not valid."))
          | some feature =>
            match feature.access with
            | none =>
              .error (.exc ("Unable to configure appliance. Feature " ++ feature.name ++
                " with uid " ++ uid ++ " does not have access."))
            | some acc =>
              let access := strLower acc
              if access ≠ "readwrite" ∧ access ≠ "writeonly" then
                .error (.exc ("Unable to configure appliance. Feature " ++ feature.name ++
                  " with uid " ++ uid ++ " has got access " ++ acc ++ "."))
              else
                let enumRes : Except PyErr Unit :=
                  match feature.values with
                  | none => .ok ()
                  | some enum =>
                    match pyGetItem d "value" with
                    | .error e => .error e
                    | .ok v =>
                      if pyIsInt v = false then
                        .error (.exc ("Unable to configure appliance. The value " ++ pyStr v ++
                          " must be an integer. Allowed values are \x7b...\x7d."))
                      else if (List.lookup (pyStr v) enum).isSome then .ok ()
                      else
                        .error (.exc ("Unable to configure appliance. Value " ++ pyStr v ++
                          " is not a valid value. Allowed values are \x7b...\x7d. "))
                match enumRes with
                | .error e => .error e
                | .ok () =>
                  match feature.min with
                  | none => .ok ()
                  | some mn =>
                    match feature.max with
                    | none => .error (.keyError "max")
                    | some mx =>
                      match pyGetItem d "value" with
                      | .error e => .error e
                      | .ok v =>
                        match pyIntVal v with
                        | none =>
                          .error (.exc ("Unable to configure appliance. Value " ++ pyStr v ++
                            " is not a valid value. The value must be an integer in the range " ++
                            toString mn ++ " and " ++ toString mx ++ "."))
                        | some k =>
                          if k < mn ∨ k > mx then
                            .error (.exc ("Unable to configure appliance. Value " ++ pyStr v ++
                              " is not a valid value. The value must be an integer in the range " ++
                              toString mn ++ " and " ++ toString mx ++ "."))
                          else .ok ()

/-- `HCDevice.test_feature`: validate every record of a batch in order,
stopping at the first exception. -/
def test_feature (features : List (String × Feature)) : List PyVal → Except PyErr Unit
  | [] => .ok ()
  | d :: rest =>
    match test_feature_one features d with
    | .error e => .error e
    | .ok () => test_feature features rest

/-- The inner `for option in data["options"]` loop of
`HCDevice.test_program_data`: each option's `uid` is read (raising on a
non-dict or on a missing key) and must resolve in the feature catalog. -/
def checkOptions (features : List (String × Feature)) : List PyVal → Except PyErr Unit
  | [] => .ok ()
  | o :: rest =>
    match pyGetItem o "uid" with
    | .error e => .error e
    | .ok ou =>
      if (List.lookup (pyStr ou) features).isSome then checkOptions features rest
      else
        .error (.valueError ("Unable to configure appliance. Option UID " ++ pyStr ou ++
          " is not valid for this device."))

/-- One iteration of the loop body of `HCDevice.test_program_data` (lines
100-133): validate a single record of a `/ro/activeProgram` batch.  A
non-list `"options"` value is iterated by Python; iterating a non-empty
string or dict yields elements on which `option["uid"]` raises `TypeError`,
while empty ones make the loop body unreachable. -/
def test_program_one (features : List (String × Feature)) (d : PyVal) :
    Except PyErr Unit :=
  match pyContains d "program" with
  | .error e => .error e
  | .ok false => .error (.typeError "Message data invalid, no program specified.")
  | .ok true =>
    match pyGetItem d "program" with
    | .error e => .error e
    | .ok p =>
      if pyIsInt p = false then
        .error (.typeError "Message data invalid, UID in 'program' must be an integer.")
      else
        let uid := pyStr p
        match List.lookup uid features with
        | none =>
          .error (.valueError ("Unable to configure appliance. Program UID " ++ uid ++
            " is not valid for this device."))
        | some feature =>
          if strContains feature.name ".Program." = false then
            .error (.valueError ("Unable to configure appliance. Program UID " ++ uid ++
              " is not a valid program - " ++ feature.name ++ "."))
          else
            match pyContains d "options" with
            | .error e => .error e
            | .ok false => .ok ()
            | .ok true =>
              match pyGetItem d "options" with
              | .error e => .error e
              | .ok opts =>
                match opts with
                | .vList l => checkOptions features l
                | .vStr s =>
                  match s.toList with
                  | [] => .ok ()
                  | _ :: _ => .error (.typeError "string indices must be integers")
                | .vDict kvs =>
                  match kvs with
                  | [] => .ok ()
                  | _ :: _ => .error (.typeError "string indices must be integers")
                | _ => .error (.typeError "object is not iterable")

/-- `HCDevice.test_program_data`: validate every record of a batch in
order, stopping at the first exception. -/
def test_program_data (features : List (String × Feature)) :
    List PyVal → Except PyErr Unit
  | [] => .ok ()
  | d :: rest =>
    match test_program_one features d with
    | .error e => .error e
    | .ok () => test_program_data features rest

/-- `HCDevice.parse_values` (lines 71-97): with an empty feature catalog the
raw record list is returned unchanged; otherwise a dict is built mapping the
descriptor's trimmed display name (or the stringified raw uid when no
descriptor exists) to the enumeration label (when the descriptor enumerates
values and the stringified raw value is one of its keys) or the raw value. -/
def parse_values (features : List (String × Feature)) (values : List PyVal) :
    Except PyErr PyVal :=
  if features.isEmpty then .ok (.vList values)
  else
    match go values [] with
    | .error e => .error e
    | .ok result => .ok (.vDict result)
where
  go : List PyVal → List (String × PyVal) → Except PyErr (List (String × PyVal))
    | [], result => .ok result
    | msg :: rest, result =>
      match pyGetItem msg "uid" with
      | .error e => .error e
      | .ok uidv =>
        match pyGetItem msg "value" with
        | .error e => .error e
        | .ok value =>
          let uid := pyStr uidv
          let value_str := pyStr value
          match List.lookup uid features with
          | none => go rest (insertAssoc (trimName uid) value result)
          | some status =>
            let value' :=
              match status.values with
              | some enum =>
                match List.lookup value_str enum with
                | some lbl => PyVal.vStr lbl
                | none => value
              | none => value
            go rest (insertAssoc (trimName status.name) value' result)

/-- The mutable fields of an `HCDevice` object (its "Session State"), as
set up by `HCDevice.__init__`: `session_id` and `tx_msg_id` start as Python
`None` and may be overwritten with arbitrary inbound payload values, so they
are `PyVal`s; `services` maps a service name to the stored
`{"version": ...}` value; `features` is the immutable catalog reference. -/
structure HCState where
  features : List (String × Feature)
  session_id : PyVal
  tx_msg_id : PyVal
  services_initialized : Bool
  services : List (String × PyVal)
  token : PyVal
deriving Repr

/-- The state of a freshly constructed `HCDevice` with catalog `features`. -/
def initState (features : List (String × Feature)) : HCState :=
  { features := features, session_id := .vNone, tx_msg_id := .vNone,
    services_initialized := false, services := [], token := .vNone }

/-- A decoded inbound wire message.  `resource` and `action` are read
unconditionally at the top of `handle_message`, so a frame lacking either
(like an undecodable frame) raises before any state is touched and is
modelled as the `none` case of `Buf` below.  The remaining envelope keys are
optional. -/
structure Msg where
  resource : String
  action : String
  sID : Option PyVal
  msgID : Option PyVal
  version : Option PyVal
  code : Option PyVal
  data : Option (List PyVal)
deriving Repr

/-- A raw inbound frame, modelled by its decoding: `none` when `json.loads`
fails or the envelope lacks `resource`/`action` (both raise before any
session state is touched), `some msg` otherwise. -/
def Buf := Option Msg

/-- An outbound wire message as passed to `ws.send`. -/
structure OutMsg where
  sID : PyVal
  msgID : PyVal
  resource : String
  version : PyVal
  action : String
  data : Option (List PyVal)
deriving Repr

/-- `HCDevice.reply` (lines 217-227): respond to an inbound message echoing
its `sID` and `msgID` (the ones the device sent to us), raising `KeyError`
if the envelope lacks one of the echoed keys. -/
def reply (msg : Msg) (r : PyVal) : Except PyErr OutMsg :=
  match msg.sID with
  | none => .error (.keyError "sID")
  | some sid =>
    match msg.msgID with
    | none => .error (.keyError "msgID")
    | some mid =>
      match msg.version with
      | none => .error (.keyError "version")
      | some ver =>
        .ok { sID := sid, msgID := mid, resource := msg.resource,
              version := ver, action := "RESPONSE", data := some [r] }

/-- The tail of `HCDevice.get`: `ws.send(msg)` inside `try/except` (a
transport failure is logged and swallowed, so it does not influence the
session state), followed unconditionally by `self.tx_msg_id += 1`, which
raises `TypeError` after the send when the counter is not an integer.  The
middle component collects the messages passed to `ws.send`. -/
def sendAndIncr (st : HCState) (m : OutMsg) : HCState × List OutMsg × Option PyErr :=
  match pyAdd1 st.tx_msg_id with
  | .ok t => ({ st with tx_msg_id := t }, [m], none)
  | .error e => (st, [m], some e)

/-- The version-resolution prologue of `HCDevice.get` (lines 231-238): once
services have been initialized and the resource path has a top-level
segment, a known segment's stored `{"version": ...}` entry replaces the
caller's `version` argument; an unknown segment only logs a diagnostic.
The two inner fallback arms are unreachable for states built by
`handle_message`, which always stores a `{"version": ...}` dict. -/
def resolveVersion (st : HCState) (resource : String) (version : PyVal) : PyVal :=
  if st.services_initialized then
    match splitOnSlash resource with
    | _ :: service :: _ =>
      match List.lookup service st.services with
      | some sv =>
        match sv with
        | .vDict kvs =>
          match List.lookup "version" kvs with
          | some v => v
          | none => version
        | _ => version
      | none => version
    | _ => version
  else version

/-- The payload validation step of `HCDevice.get` (lines 252-258): a POST to
`/ro/values` goes through `test_feature`, a POST to `/ro/activeProgram`
through `test_program_data`, everything else is passed through. -/
def validatePayload (features : List (String × Feature)) (resource action : String)
    (dl : List PyVal) : Except PyErr Unit :=
  if action == "POST" then
    if resource == "/ro/values" then test_feature features dl
    else if resource == "/ro/activeProgram" then test_program_data features dl
    else .ok ()
  else .ok ()

/-- `HCDevice.get` (lines 230-266).  `sendRaises` says whether the transport
`ws.send` raises; the exception is caught and logged inside `get`, so the
result does not depend on it.  The caller's `version` argument is
overwritten from the `services` table whenever services have been
initialized and the path's top-level segment is a known service; a mutating
POST to `/ro/values` or `/ro/activeProgram` is validated first, a validation
exception aborting the call before anything reaches the transport. -/
def get (st : HCState) (resource : String) (version : PyVal) (action : String)
    (data : Option PyVal) (sendRaises : Bool) : HCState × List OutMsg × Option PyErr :=
  let version := resolveVersion st resource version
  let msg0 : OutMsg :=
    { sID := st.session_id, msgID := st.tx_msg_id, resource := resource,
      version := version, action := action, data := none }
  match data with
  | none =>
    let _ := sendRaises
    sendAndIncr st msg0
  | some d =>
    let dl := pyAsList d
    match validatePayload st.features resource action dl with
    | .error e => (st, [], some e)
    | .ok () => sendAndIncr st { msg0 with data := some dl }

/-- The `for service in msg["data"]` loop of the `/ci/services` branch of
`HCDevice.handle_message`: each record's `version` (the RHS dict literal is
evaluated first) and `service` keys are read, and
`services[name] = {"version": version}` is assigned.  On an exception the
assignments already performed persist, so the partially updated table is
returned alongside the error. -/
def updateServices (svs : List (String × PyVal)) :
    List PyVal → List (String × PyVal) × Option PyErr
  | [] => (svs, none)
  | s :: rest =>
    match pyGetItem s "version" with
    | .error e => (svs, some e)
    | .ok ver =>
      match pyGetItem s "service" with
      | .error e => (svs, some e)
      | .ok sv =>
        match sv with
        | .vStr nm => updateServices (insertAssoc nm (.vDict [("version", ver)]) svs) rest
        | _ => (svs, some (.typeError "service name is not a string (model restriction)"))

/-- The `elif action == "POST"` branch of `HCDevice.handle_message`: the
`/ei/initialValues` handshake message populates `session_id` and
`tx_msg_id` (in that order; assignments made before an exception persist)
and is answered with the fixed identity record via `reply`; any other POST
resource is merely logged. -/
def handlePost (st : HCState) (msg : Msg) :
    HCState × List OutMsg × Except PyErr PyVal :=
  if msg.resource == "/ei/initialValues" then
    match msg.sID with
    | none => (st, [], .error (.keyError "sID"))
    | some sid =>
      let st1 := { st with session_id := sid }
      match msg.data with
      | none => (st1, [], .error (.keyError "data"))
      | some [] => (st1, [], .error (.indexError "list index out of range"))
      | some (d0 :: _) =>
        match pyGetItem d0 "edMsgID" with
        | .error e => (st1, [], .error e)
        | .ok ed =>
          let st2 := { st1 with tx_msg_id := ed }
          match reply msg (.vDict [("deviceType", .vStr "Application"),
              ("deviceName", .vStr "hcpy"), ("deviceID", .vStr "0badcafe")]) with
          | .error e => (st2, [], .error e)
          | .ok out => (st2, [out], .ok (.vDict []))
  else (st, [], .ok (.vDict []))

/-- The `elif action == "RESPONSE" or action == "NOTIFY"` branch of
`HCDevice.handle_message`: the resource dispatch chain, transcribed in
source order. -/
def handleRespNotify (st : HCState) (msg : Msg) :
    HCState × List OutMsg × Except PyErr PyVal :=
  if msg.resource == "/iz/info" || msg.resource == "/ci/info" then
    match msg.data with
    | some (d0 :: _) => (st, [], .ok d0)
    | _ => (st, [], .ok (.vDict []))
  else if msg.resource == "/ro/descriptionChange" ||
      msg.resource == "/ro/allDescriptionChanges" then
    (st, [], .ok (.vDict []))
  else if msg.resource == "/ni/info" then
    match msg.data with
    | some (d0 :: _) => (st, [], .ok d0)
    | _ => (st, [], .ok (.vDict []))
  else if msg.resource == "/ni/config" then
    (st, [], .ok (.vDict []))
  else if msg.resource == "/ro/allMandatoryValues" ||
      msg.resource == "/ro/values" then
    match msg.data with
    | some d =>
      (match parse_values st.features d with
       | .ok v => (st, [], .ok v)
       | .error e => (st, [], .error e))
    | none => (st, [], .ok (.vDict []))
  else if msg.resource == "/ci/registeredDevices" then
    (st, [], .ok (.vDict []))
  else if msg.resource == "/ci/tzInfo" then
    (st, [], .ok (.vDict []))
  else if msg.resource == "/ci/authentication" then
    match msg.data with
    | some (d0 :: _) =>
      (match pyGetItem d0 "response" with
       | .ok tok => ({ st with token := tok }, [], .ok (.vDict []))
       | .error e => (st, [], .error e))
    | _ => (st, [], .ok (.vDict []))
  else if msg.resource == "/ci/services" then
    match msg.data with
    | none => (st, [], .error (.keyError "data"))
    | some d =>
      match updateServices st.services d with
      | (svs, some e) => ({ st with services := svs }, [], .error e)
      | (svs, none) =>
        ({ st with services := svs, services_initialized := true }, [], .ok (.vDict []))
  else (st, [], .ok (.vDict []))

/-- `HCDevice.handle_message` (lines 309-396): decode a frame, route it by
`code`/`action`/`resource`, mutate the session state, possibly send a reply,
and return the parsed value.  A present `code` key short-circuits all other
routing.  The result is the session state as mutated so far (assignments
made before an exception persist), the list of messages passed to
`ws.send`, and either the returned `values` or the exception that
propagates to `recv`. -/
def handle_message (st : HCState) (buf : Buf) :
    HCState × List OutMsg × Except PyErr PyVal :=
  match buf with
  | none => (st, [], .error (.valueError "json.loads failed or envelope lacks resource/action"))
  | some msg =>
    match msg.code with
    | some c =>
      (st, [], .ok (.vDict [("error", c), ("resource", .vStr msg.resource)]))
    | none =>
      if msg.action == "POST" then handlePost st msg
      else if msg.action == "RESPONSE" || msg.action == "NOTIFY" then handleRespNotify st msg
      else (st, [], .ok (.vDict []))

/-- What one call to the transport `ws.recv()` produces: end-of-stream
(`None`), an exception, or a raw frame. -/
inductive RecvInput where
  | closed : RecvInput
  | raises : RecvInput
  | frame : Buf → RecvInput

/-- `HCDevice.recv` (lines 201-214): end-of-stream and transport exceptions
give `None`; otherwise the frame is handed to `handle_message`, whose
exceptions are caught, logged and converted to `None` (keeping whatever
state mutations had already happened). -/
def recvStep (st : HCState) (inp : RecvInput) : HCState × List OutMsg × Option PyVal :=
  match inp with
  | .closed => (st, [], none)
  | .raises => (st, [], none)
  | .frame buf =>
    match handle_message st buf with
    | (st', out, .ok v) => (st', out, some v)
    | (st', out, .error _) => (st', out, none)

/-- The `while True: self.recv(); if self.services_initialized: break` loop
of `HCDevice.reconnect`: receive first, then test the flag.  `none` models
the loop blocking forever because the transport never yields another frame;
otherwise the final state, the accumulated sends and the unconsumed inputs
are returned. -/
def servicesLoop (st : HCState) :
    List RecvInput → Option (HCState × List OutMsg × List RecvInput)
  | [] => none
  | i :: rest =>
    let (st', out, _) := recvStep st i
    if st'.services_initialized then some (st', out, rest)
    else
      match servicesLoop st' rest with
      | none => none
      | some (st'', out', rem) => some (st'', out ++ out', rem)

/-- A sequence of `self.get(resource, version, action, data)` calls, stopping
at the first one that raises (transport send failures are swallowed inside
`get`, so they never stop the sequence). -/
def getChain (st : HCState) :
    List (String × PyVal × String × Option PyVal) → HCState × List OutMsg × Option PyErr
  | [] => (st, [], none)
  | (r, v, a, d) :: rest =>
    match get st r v a d false with
    | (st', out, some e) => (st', out, some e)
    | (st', out, none) =>
      let (st'', out', err) := getChain st' rest
      (st'', out ++ out', err)

/-- `HCDevice.reconnect` (lines 268-307).  `self.ws.reconnect()` touches only
the transport object, so the session state enters the sequence unchanged.
`inputs` is the stream of transport receive outcomes on the new connection
and `freshTok` the freshly generated url-safe base64 token (the randomness
is external).  The result is `none` when a receive blocks forever, otherwise
the final state, every message passed to `ws.send`, and the exception that
propagates out of `reconnect`, if any. -/
def reconnect (st : HCState) (inputs : List RecvInput) (freshTok : String) :
    Option (HCState × List OutMsg × Option PyErr) :=
  match inputs with
  | [] => none
  | i :: rest =>
    let (st1, out1, _) := recvStep st i
    match get st1 "/ci/services" (.vInt 1) "GET" none false with
    | (st2, out2, some e) => some (st2, out1 ++ out2, some e)
    | (st2, out2, none) =>
      match servicesLoop st2 rest with
      | none => none
      | some (st3, out3, _rem) =>
        let tok := stripEquals freshTok
        let st4 := { st3 with token := PyVal.vStr tok }
        let (st5, out5, err) := getChain st4
          [("/ci/authentication", .vInt 2, "GET", some (.vDict [("nonce", .vStr tok)])),
           ("/ci/info", .vInt 1, "GET", none),
           ("/iz/info", .vInt 1, "GET", none),
           ("/ci/registeredDevices", .vInt 1, "GET", none),
           ("/ei/deviceReady", .vInt 2, "NOTIFY", none),
           ("/ni/info", .vInt 1, "GET", none),
           ("/ro/allMandatoryValues", .vInt 1, "GET", none)]
        some (st5, out1 ++ out2 ++ out3 ++ out5, err)

/-- Acceptance condition for one value-write record as the specification
words it: an integer-typed `uid` field and a `value` field are present, the
stringified uid is a key of the feature catalog, the descriptor's access
level is `readwrite` or `writeonly`, a declared enumeration constraint is
satisfied by an integer value whose string form is an enumeration key, and a
declared numeric range `[min, max]` is satisfied by an integer value within
it inclusively. -/
def specAcceptsValueWrite (features : List (String × Feature)) (d : PyVal) : Bool :=
  match d with
  | .vDict kvs =>
    match List.lookup "uid" kvs, List.lookup "value" kvs with
    | some u, some v =>
      pyIsInt u &&
      (match List.lookup (pyStr u) features with
       | some f =>
         (match f.access with
          | some a => strLower a == "readwrite" || strLower a == "writeonly"
          | none => false) &&
         (match f.values with
          | some enum => pyIsInt v && (List.lookup (pyStr v) enum).isSome
          | none => true) &&
         (match f.min, f.max with
          | some mn, some mx =>
            (match pyIntVal v with
             | some k => decide (mn ≤ k) && decide (k ≤ mx)
             | none => false)
          | _, _ => true)
       | none => false)
    | _, _ => false
  | _ => false

/-- One option of a program-activation record is acceptable, as the
specification words it, when its `uid` field resolves in the feature
catalog (no access or range check applies to options). -/
def specOptionOk (features : List (String × Feature)) (o : PyVal) : Bool :=
  match o with
  | .vDict okvs =>
    (match List.lookup "uid" okvs with
     | some ou => (List.lookup (pyStr ou) features).isSome
     | none => false)
  | _ => false

/-- Acceptance condition for one program-activation record as the
specification words it: a `program` field is present and integer-typed, its
stringified id resolves to a catalog entry whose display name contains the
program-namespace marker `".Program."`, and every option of a present
options list has a `uid` that resolves in the catalog. -/
def specProgramRecordOk (features : List (String × Feature)) (d : PyVal) : Bool :=
  match d with
  | .vDict kvs =>
    match List.lookup "program" kvs with
    | none => false
    | some p =>
      pyIsInt p &&
      (match List.lookup (pyStr p) features with
       | none => false
       | some f =>
         strContains f.name ".Program." &&
         (match List.lookup "options" kvs with
          | none => true
          | some (.vList l) => l.all (specOptionOk features)
          | some _ => false))
  | _ => false

lemma digitChar_ne_dot (m : Nat) (h : m < 10) : Nat.digitChar m ≠ '.' := by
  interval_cases m <;> decide

lemma toDigitsCore_ne_dot (f : Nat) :
    ∀ (n : Nat) (acc : List Char), (∀ c ∈ acc, c ≠ '.') →
      ∀ c ∈ Nat.toDigitsCore 10 f n acc, c ≠ '.' := by
  induction f with
  | zero => intro n acc hacc c hc; exact hacc c hc
  | succ f ih =>
    intro n acc hacc c hc
    have hd : Nat.digitChar (n % 10) ≠ '.' :=
      digitChar_ne_dot _ (Nat.mod_lt _ (by norm_num))
    have hacc' : ∀ c ∈ Nat.digitChar (n % 10) :: acc, c ≠ '.' := by
      intro c hc
      rcases List.mem_cons.mp hc with h | h
      · simpa [h] using hd
      · exact hacc c h
    simp only [Nat.toDigitsCore] at hc
    split at hc
    · exact hacc' c hc
    · exact ih _ _ hacc' c hc

lemma int_toString_ne_dot (n : Int) : ∀ c ∈ (toString n).toList, c ≠ '.' := by
  cases n with
  | ofNat m =>
    intro c hc
    have : c ∈ Nat.toDigits 10 m := by
      simpa [toString, Nat.repr, List.asString, String.toList] using hc
    exact toDigitsCore_ne_dot _ _ _ (by intro c hc; cases hc) c this
  | negSucc m =>
    intro c hc
    have hc' : c ∈ ("-" ++ Nat.repr (m + 1)).data := hc
    rw [String.data_append] at hc'
    rcases List.mem_append.mp hc' with h | h
    · have h2 : c ∈ ['-'] := h
      have h3 : c = '-' := by simpa using h2
      subst h3
      decide
    · have : c ∈ Nat.toDigits 10 (m + 1) := by
        simpa [Nat.repr, List.asString] using h
      exact toDigitsCore_ne_dot _ _ _ (by intro c hc; cases hc) c this

lemma trimName_eq_self (s : String) (h : ∀ c ∈ s.toList, c ≠ '.') :
    trimName s = s := by
  have hrev : ∀ c ∈ s.toList.reverse, (fun c => decide (c ≠ '.')) c = true := by
    intro c hc
    simpa using h c (List.mem_reverse.mp hc)
  unfold trimName
  rw [List.takeWhile_eq_self_iff.mpr hrev, List.reverse_reverse]
  cases s
  rfl

lemma trimName_int (n : Int) : trimName (toString n) = toString n :=
  trimName_eq_self _ (int_toString_ne_dot n)

lemma lookup_mem {β : Type} {l : List (String × β)} {k : String} {v : β}
    (h : List.lookup k l = some v) : (k, v) ∈ l := by
  induction l with
  | nil => cases h
  | cons p rest ih =>
    cases p with
    | mk k' v' =>
      by_cases hk : k = k'
      · subst hk
        simp [List.lookup] at h
        simp [h]
      · have hbeq : (k == k') = false := by simpa using hk
        rw [List.lookup, hbeq] at h
        exact List.mem_cons_of_mem _ (ih h)


set_option maxHeartbeats 1000000 in
lemma get_keeps_flags (st : HCState) (r : String) (v : PyVal) (a : String)
    (d : Option PyVal) (sr : Bool) :
    (get st r v a d sr).1.services_initialized = st.services_initialized ∧
    (get st r v a d sr).1.services = st.services := by
  constructor <;> (unfold get sendAndIncr; dsimp only; repeat' split) <;> rfl

set_option maxHeartbeats 1000000 in
lemma handlePost_mono (st : HCState) (msg : Msg)
    (h : st.services_initialized = true) :
    (handlePost st msg).1.services_initialized = true := by
  unfold handlePost
  dsimp only
  repeat' split
  all_goals exact h

set_option maxHeartbeats 1000000 in
lemma handleRespNotify_mono (st : HCState) (msg : Msg)
    (h : st.services_initialized = true) :
    (handleRespNotify st msg).1.services_initialized = true := by
  unfold handleRespNotify
  repeat' split
  all_goals first | exact h | rfl

lemma handle_message_mono (st : HCState) (buf : Buf)
    (h : st.services_initialized = true) :
    (handle_message st buf).1.services_initialized = true := by
  unfold handle_message
  repeat' split
  all_goals first | exact h | exact handlePost_mono st _ h | exact handleRespNotify_mono st _ h

lemma recvStep_mono (st : HCState) (i : RecvInput)
    (h : st.services_initialized = true) :
    (recvStep st i).1.services_initialized = true := by
  cases i with
  | closed => exact h
  | raises => exact h
  | frame buf =>
    have hm := handle_message_mono st buf h
    rcases hh : handle_message st buf with ⟨st', out, res⟩
    rw [hh] at hm
    cases res <;> simp only [recvStep, hh] <;> exact hm

lemma servicesLoop_one (st : HCState) (h : st.services_initialized = true)
    (i : RecvInput) (rest : List RecvInput) :
    ∃ st2 out2, servicesLoop st (i :: rest) = some (st2, out2, rest) ∧
      st2.services_initialized = true := by
  rcases hr : recvStep st i with ⟨st', out', v⟩
  have hm : st'.services_initialized = true := by
    have h2 := recvStep_mono st i h
    rw [hr] at h2
    exact h2
  refine ⟨st', out', ?_, hm⟩
  rw [servicesLoop, hr]
  simp [hm]

lemma servicesLoop_mono (inputs : List RecvInput) :
    ∀ (st st2 : HCState) (out : List OutMsg) (rem : List RecvInput),
      servicesLoop st inputs = some (st2, out, rem) →
      st.services_initialized = true → st2.services_initialized = true := by
  induction inputs with
  | nil => intro st st2 out rem h; cases h
  | cons i rest ih =>
    intro st st2 out rem h hini
    rcases servicesLoop_one st hini i rest with ⟨st2', out2', heq, hm⟩
    rw [heq] at h
    cases h
    exact hm

lemma getChain_mono (calls : List (String × PyVal × String × Option PyVal)) :
    ∀ (st : HCState), st.services_initialized = true →
      (getChain st calls).1.services_initialized = true := by
  induction calls with
  | nil => intro st h; exact h
  | cons c rest ih =>
    intro st h
    rcases c with ⟨r, v, a, d⟩
    rw [getChain]
    rcases hg : get st r v a d false with ⟨st', out, err⟩
    have hm : st'.services_initialized = true := by
      have h2 := (get_keeps_flags st r v a d false).1
      rw [hg] at h2
      rw [h2]
      exact h
    cases err with
    | some e => exact hm
    | none =>
      rcases hc : getChain st' rest with ⟨st'', out', err'⟩
      have h3 := ih st' hm
      rw [hc] at h3
      simpa [hc] using h3

lemma reconnect_mono (st : HCState) (inputs : List RecvInput) (tok : String)
    (st' : HCState) (out : List OutMsg) (err : Option PyErr)
    (h : st.services_initialized = true)
    (hr : reconnect st inputs tok = some (st', out, err)) :
    st'.services_initialized = true := by
  match inputs with
  | [] => cases hr
  | i :: rest =>
    rcases h1 : recvStep st i with ⟨st1, out1, v1⟩
    have hm1 : st1.services_initialized = true := by
      have h1m := recvStep_mono st i h
      rw [h1] at h1m
      exact h1m
    rcases h2 : get st1 "/ci/services" (.vInt 1) "GET" none false with ⟨st2, out2, err2⟩
    have hm2 : st2.services_initialized = true := by
      have h2m := (get_keeps_flags st1 "/ci/services" (.vInt 1) "GET" none false).1
      rw [h2] at h2m
      rw [h2m]
      exact hm1
    rw [reconnect, h1] at hr
    dsimp only at hr
    rw [h2] at hr
    cases err2 with
    | some e =>
      dsimp only at hr
      cases hr
      exact hm2
    | none =>
      dsimp only at hr
      rcases h4 : servicesLoop st2 rest with _ | ⟨st3, out3, rem⟩
      · rw [h4] at hr
        exact Option.noConfusion hr
      · rw [h4] at hr
        dsimp only at hr
        have hm3 : st3.services_initialized = true :=
          servicesLoop_mono rest st2 st3 out3 rem h4 hm2
        rcases h5 : getChain { st3 with token := PyVal.vStr (stripEquals tok) }
            [("/ci/authentication", .vInt 2, "GET",
                some (.vDict [("nonce", .vStr (stripEquals tok))])),
             ("/ci/info", .vInt 1, "GET", none),
             ("/iz/info", .vInt 1, "GET", none),
             ("/ci/registeredDevices", .vInt 1, "GET", none),
             ("/ei/deviceReady", .vInt 2, "NOTIFY", none),
             ("/ni/info", .vInt 1, "GET", none),
             ("/ro/allMandatoryValues", .vInt 1, "GET", none)] with ⟨st5, out5, err5⟩
        have hm5 : st5.services_initialized = true := by
          have h5m := getChain_mono
            [("/ci/authentication", .vInt 2, "GET",
                some (.vDict [("nonce", .vStr (stripEquals tok))])),
             ("/ci/info", .vInt 1, "GET", none),
             ("/iz/info", .vInt 1, "GET", none),
             ("/ci/registeredDevices", .vInt 1, "GET", none),
             ("/ei/deviceReady", .vInt 2, "NOTIFY", none),
             ("/ni/info", .vInt 1, "GET", none),
             ("/ro/allMandatoryValues", .vInt 1, "GET", none)]
            { st3 with token := PyVal.vStr (stripEquals tok) } hm3
          rw [h5] at h5m
          exact h5m
        rw [h5] at hr
        dsimp only at hr
        cases hr
        exact hm5

/-- C1, counterexample: the claim says reconnect starts the Session from
scratch — `servicesDiscovered` false immediately after the transport
reconnects, message-id counter unset, no carry-over, and a services loop
that waits for a fresh services-list response.  Starting from a prior
session with `services_initialized = true`, counter `5` and a populated
services table, and a new connection that never delivers any frame (both
receives hit end-of-stream, so no fresh services-list response ever
arrives), `reconnect` nevertheless completes without error: the flag is
still `true`, the counter was carried over (5, incremented to 13 by the
eight handshake sends), and the old services table survives. -/
theorem C1_reconnect_counterexample :
    (reconnect ⟨[], .vInt 99, .vInt 5, true, [("ci", .vDict [("version", .vInt 3)])], .vNone⟩
        [.closed, .closed] "AB=CD").map
      (fun r => (r.1.services_initialized, r.1.tx_msg_id, r.1.services, r.2.2.isSome)) =
      some (true, .vInt 13, [("ci", .vDict [("version", .vInt 3)])], false) := rfl

/-- C1, amended: `reconnect` does not reset the Session.  `ws.reconnect()`
touches only the transport, every session field enters the handshake with
its prior value, and when `servicesDiscovered` was already true it stays
true for the whole reconnect (it is never set back to false), so the
services-enumeration loop exits after a single receive whether or not a
services-list response arrived. -/
theorem C1_reconnect_amended (st : HCState) (h : st.services_initialized = true) :
    (∀ i rest, ∃ st2 out2, servicesLoop st (i :: rest) = some (st2, out2, rest)) ∧
    (∀ inputs tok st' out err, reconnect st inputs tok = some (st', out, err) →
      st'.services_initialized = true) := by
  constructor
  · intro i rest
    rcases servicesLoop_one st h i rest with ⟨st2, out2, heq, _⟩
    exact ⟨st2, out2, heq⟩
  · intro inputs tok st' out err hr
    exact reconnect_mono st inputs tok st' out err h hr

theorem C1_reconnect_amended_witness :
    ∃ st2 out2,
      servicesLoop ⟨[], .vNone, .vInt 5, true, [], .vNone⟩ [RecvInput.closed] =
        some (st2, out2, []) :=
  (C1_reconnect_amended ⟨[], .vNone, .vInt 5, true, [], .vNone⟩ rfl).1 RecvInput.closed []

/-- C2, counterexample: the claim says that once the initial-values message
has set the message counter, every outbound message on the session carries
the current `nextMessageId` and increments it by one.  Handling the
initial-values message itself (inbound `msgID` 10, `edMsgID` 20) sets the
counter to 20 and then sends the identity reply, an outbound message that
carries `msgID` 10 — not the counter's value — and leaves the counter at 20
instead of incrementing it. -/
theorem C2_msgid_counterexample :
    (handle_message ⟨[], .vNone, .vNone, false, [], .vNone⟩
        (some ⟨"/ei/initialValues", "POST", some (.vInt 4), some (.vInt 10),
          some (.vInt 2), none, some [.vDict [("edMsgID", .vInt 20)]]⟩)).1.tx_msg_id =
      PyVal.vInt 20 ∧
    (handle_message ⟨[], .vNone, .vNone, false, [], .vNone⟩
        (some ⟨"/ei/initialValues", "POST", some (.vInt 4), some (.vInt 10),
          some (.vInt 2), none, some [.vDict [("edMsgID", .vInt 20)]]⟩)).2.1.map
      OutMsg.msgID = [PyVal.vInt 10] ∧
    PyVal.vInt 10 ≠ PyVal.vInt 20 :=
  ⟨rfl, rfl, by simp⟩

/-- C2, amended: every outbound message sent through `get` carries the
current `session_id` and the current integer `tx_msg_id`, and the call
increments the counter by exactly one — whether or not the transport send
raises; the one outbound message not sent through `get`, the
initial-values identity reply, instead echoes the inbound message's ids
and leaves the counter untouched. -/
theorem C2_msgid_amended (st : HCState) (n : Int) (resource action : String)
    (ver : PyVal) (dataOpt : Option PyVal) (sr : Bool)
    (h : st.tx_msg_id = PyVal.vInt n)
    (hok : (get st resource ver action dataOpt sr).2.2 = none) :
    (get st resource ver action dataOpt sr).1.tx_msg_id = PyVal.vInt (n + 1) ∧
    (get st resource ver action dataOpt sr).2.1.map OutMsg.msgID = [PyVal.vInt n] ∧
    (get st resource ver action dataOpt sr).2.1.map OutMsg.sID = [st.session_id] := by
  cases dataOpt with
  | none =>
    unfold get sendAndIncr
    dsimp only
    rw [h]
    simp [pyAdd1]
  | some d =>
    rcases hc : validatePayload st.features resource action (pyAsList d) with e | u
    · unfold get at hok
      dsimp only at hok
      rw [hc] at hok
      dsimp only at hok
      exact Option.noConfusion hok
    · unfold get sendAndIncr
      dsimp only
      rw [hc]
      dsimp only
      rw [h]
      simp [pyAdd1]

theorem C2_msgid_amended_witness :
    (get ⟨[], .vInt 7, .vInt 5, false, [], .vNone⟩ "/ni/info" (.vInt 1) "GET" none
        true).1.tx_msg_id = PyVal.vInt (5 + 1) ∧
    (get ⟨[], .vInt 7, .vInt 5, false, [], .vNone⟩ "/ni/info" (.vInt 1) "GET" none
        true).2.1.map OutMsg.msgID = [PyVal.vInt 5] ∧
    (get ⟨[], .vInt 7, .vInt 5, false, [], .vNone⟩ "/ni/info" (.vInt 1) "GET" none
        true).2.1.map OutMsg.sID =
      [(⟨[], .vInt 7, .vInt 5, false, [], .vNone⟩ : HCState).session_id] :=
  C2_msgid_amended ⟨[], .vInt 7, .vInt 5, false, [], .vNone⟩ 5 "/ni/info" "GET"
    (.vInt 1) none true rfl rfl

/-- C4, counterexample: the claim says the services-table version is used
only when the caller gave no explicit version override.  With services
discovered and `"ci"` registered at version 3, a request to
`/ci/authentication` with the explicit override `version = 2` is
nevertheless encoded with version 3 — `get` overwrites every caller
version for a known segment. -/
theorem C4_version_counterexample :
    (get ⟨[], .vNone, .vInt 5, true, [("ci", .vDict [("version", .vInt 3)])], .vNone⟩
        "/ci/authentication" (.vInt 2) "GET" none false).2.1.map OutMsg.version =
      [PyVal.vInt 3] ∧
    PyVal.vInt 3 ≠ PyVal.vInt 2 :=
  ⟨rfl, by simp⟩

lemma resolveVersion_eq (st : HCState) (resource : String) (ver : PyVal)
    (p0 svc : String) (restParts : List String)
    (h1 : st.services_initialized = true)
    (h2 : splitOnSlash resource = p0 :: svc :: restParts) :
    resolveVersion st resource ver =
      (match List.lookup svc st.services with
       | some (.vDict kvs) =>
         (match List.lookup "version" kvs with
          | some v => v
          | none => ver)
       | some _ => ver
       | none => ver) := by
  unfold resolveVersion
  rw [h2]
  simp only [h1, if_true]
  cases hl : List.lookup svc st.services with
  | none => rfl
  | some sv =>
    cases sv <;> rfl

lemma get_none_sent (st : HCState) (r : String) (v : PyVal) (a : String) (sr : Bool) :
    (get st r v a none sr).2.1 =
      [{ sID := st.session_id, msgID := st.tx_msg_id, resource := r,
         version := resolveVersion st r v, action := a, data := none }] := by
  unfold get sendAndIncr
  dsimp only
  split <;> rfl

/-- C4, amended: once services are discovered, the envelope version for a
resource path with a top-level segment is always taken from the services
table when the segment is known — even when the caller passed an explicit
version — and is the caller's version, non-fatally, when the segment is
unknown. -/
theorem C4_version_amended (st : HCState) (resource : String) (ver : PyVal)
    (action : String) (sr : Bool) (p0 svc : String) (restParts : List String)
    (h1 : st.services_initialized = true)
    (h2 : splitOnSlash resource = p0 :: svc :: restParts) :
    (∀ v kvs, List.lookup svc st.services = some (.vDict kvs) →
      List.lookup "version" kvs = some v →
      (get st resource ver action none sr).2.1.map OutMsg.version = [v]) ∧
    (List.lookup svc st.services = none →
      (get st resource ver action none sr).2.1.map OutMsg.version = [ver]) := by
  constructor
  · intro v kvs hsvc hver
    rw [get_none_sent]
    simp only [List.map]
    rw [resolveVersion_eq st resource ver p0 svc restParts h1 h2]
    simp only [hsvc, hver]
  · intro hsvc
    rw [get_none_sent]
    simp only [List.map]
    rw [resolveVersion_eq st resource ver p0 svc restParts h1 h2]
    simp only [hsvc]

theorem C4_version_amended_witness :
    (handle_message (initState []) (some ⟨"/ci/services", "RESPONSE", none, none, none,
        none, some [.vDict [("service", .vStr "ci"), ("version", .vInt 3)]]⟩)).1.services =
      [("ci", .vDict [("version", .vInt 3)])] ∧
    (handle_message (initState []) (some ⟨"/ci/services", "RESPONSE", none, none, none,
        none, some [.vDict [("service", .vStr "ci"), ("version", .vInt 3)]]⟩)).1.services_initialized =
      true ∧
    (get (handle_message (initState []) (some ⟨"/ci/services", "RESPONSE", none, none, none,
          none, some [.vDict [("service", .vStr "ci"), ("version", .vInt 3)]]⟩)).1
        "/ci/info" (.vInt 1) "GET" none false).2.1.map OutMsg.version = [PyVal.vInt 3] :=
  ⟨rfl, rfl,
    (C4_version_amended _ "/ci/info" (.vInt 1) "GET" false "" "ci" ["info"] rfl rfl).1
      (PyVal.vInt 3) [("version", PyVal.vInt 3)] rfl rfl⟩

/-- C7: the receive wrapper never propagates an exception.  End-of-stream
and a raising transport both give `None` with the state untouched; an
undecodable frame gives `None` with the session state unchanged; and any
exception raised while handling a decoded frame is caught and converted to
a `None` result. -/
theorem C7_recv_no_raise (st : HCState) :
    recvStep st RecvInput.closed = (st, [], none) ∧
    recvStep st RecvInput.raises = (st, [], none) ∧
    recvStep st (RecvInput.frame none) = (st, [], none) ∧
    (∀ buf st' out e, handle_message st buf = (st', out, .error e) →
      recvStep st (.frame buf) = (st', out, none)) := by
  refine ⟨rfl, rfl, rfl, ?_⟩
  intro buf st' out e h
  unfold recvStep
  dsimp only
  rw [h]

theorem C7_recv_no_raise_witness :
    recvStep (initState []) (RecvInput.frame none) = (initState [], [], none) ∧
    recvStep (initState [])
        (RecvInput.frame (some ⟨"/ei/initialValues", "POST", none, none, none, none, none⟩)) =
      (initState [], [], none) :=
  ⟨(C7_recv_no_raise (initState [])).2.2.1,
   (C7_recv_no_raise (initState [])).2.2.2 _ _ _ (PyErr.keyError "sID") rfl⟩

/-- C8: a well-formed inbound message whose envelope contains a `code`
field short-circuits all other routing: the dispatcher returns exactly
`{error: code, resource: resource}`, updates no session state and sends
nothing. -/
theorem C8_error_short_circuit (st : HCState) (msg : Msg) (c : PyVal)
    (h : msg.code = some c) :
    handle_message st (some msg) =
      (st, [], .ok (.vDict [("error", c), ("resource", .vStr msg.resource)])) := by
  unfold handle_message
  dsimp only
  rw [h]

theorem C8_error_short_circuit_witness :
    handle_message (initState [])
        (some ⟨"/ro/values", "RESPONSE", none, none, none, some (.vInt 404), none⟩) =
      (initState [], [], .ok (.vDict [("error", .vInt 404), ("resource", .vStr "/ro/values")])) :=
  C8_error_short_circuit (initState [])
    ⟨"/ro/values", "RESPONSE", none, none, none, some (.vInt 404), none⟩ (.vInt 404) rfl

/-- C9: when write validation raises inside `get` — a mutating POST to
`/ro/values` or `/ro/activeProgram` with an invalid payload — the session
state, and in particular `tx_msg_id`, is unchanged, nothing is sent, and
the validation exception is the one raised to the caller. -/
lemma validatePayload_values (features : List (String × Feature)) (dl : List PyVal) :
    validatePayload features "/ro/values" "POST" dl = test_feature features dl := rfl

lemma validatePayload_program (features : List (String × Feature)) (dl : List PyVal) :
    validatePayload features "/ro/activeProgram" "POST" dl =
      test_program_data features dl := rfl

theorem C9_tx_unchanged_on_validation_error (st : HCState) (ver : PyVal) (d : PyVal)
    (sr : Bool) (e : PyErr) :
    (test_feature st.features (pyAsList d) = .error e →
      get st "/ro/values" ver "POST" (some d) sr = (st, [], some e)) ∧
    (test_program_data st.features (pyAsList d) = .error e →
      get st "/ro/activeProgram" ver "POST" (some d) sr = (st, [], some e)) := by
  constructor <;> intro h
  · unfold get
    dsimp only
    rw [validatePayload_values, h]
  · unfold get
    dsimp only
    rw [validatePayload_program, h]

theorem C9_tx_unchanged_on_validation_error_witness :
    get (initState []) "/ro/values" (.vInt 1) "POST" (some (.vDict [("value", .vInt 1)]))
        false =
      (initState [], [],
        some (.exc "Unable to configure appliance. UID is required.")) :=
  (C9_tx_unchanged_on_validation_error (initState []) (.vInt 1)
      (.vDict [("value", .vInt 1)]) false
      (.exc "Unable to configure appliance. UID is required.")).1 rfl

/-- C5: value normalization.  With a non-empty catalog, a record whose
stringified integer uid has a descriptor is keyed by the descriptor's
display name trimmed to its final dotted segment, its value replaced by the
enumeration label exactly when the descriptor enumerates values and the
stringified raw value matches an enumeration key; an unknown uid keeps the
raw uid as key and the raw value; with no catalog the raw records are
returned unchanged. -/
theorem C5_parse_values (features : List (String × Feature)) (f : Feature)
    (n : Int) (v : PyVal) :
    (features ≠ [] → List.lookup (toString n) features = some f →
      parse_values features [.vDict [("uid", .vInt n), ("value", v)]] =
        .ok (.vDict [(trimName f.name,
          match f.values with
          | some enum =>
            (match List.lookup (pyStr v) enum with
             | some lbl => PyVal.vStr lbl
             | none => v)
          | none => v)])) ∧
    (features ≠ [] → List.lookup (toString n) features = none →
      parse_values features [.vDict [("uid", .vInt n), ("value", v)]] =
        .ok (.vDict [(toString n, v)])) ∧
    (∀ vals, parse_values [] vals = .ok (.vList vals)) := by
  refine ⟨?_, ?_, fun vals => rfl⟩
  · intro hne hf
    rcases features with _ | ⟨p, rest⟩
    · exact absurd rfl hne
    · have hg1 : pyGetItem (PyVal.vDict [("uid", PyVal.vInt n), ("value", v)]) "uid" =
          .ok (.vInt n) := rfl
      have hg2 : pyGetItem (PyVal.vDict [("uid", PyVal.vInt n), ("value", v)]) "value" =
          .ok v := rfl
      simp only [parse_values, parse_values.go, List.isEmpty_cons, Bool.false_eq_true,
        if_false, hg1, hg2, pyStr, hf]
      simp [parse_values.go, insertAssoc]
  · intro hne hf
    rcases features with _ | ⟨p, rest⟩
    · exact absurd rfl hne
    · have hg1 : pyGetItem (PyVal.vDict [("uid", PyVal.vInt n), ("value", v)]) "uid" =
          .ok (.vInt n) := rfl
      have hg2 : pyGetItem (PyVal.vDict [("uid", PyVal.vInt n), ("value", v)]) "value" =
          .ok v := rfl
      simp only [parse_values, parse_values.go, List.isEmpty_cons, Bool.false_eq_true,
        if_false, hg1, hg2, pyStr, hf]
      simp [parse_values.go, insertAssoc, trimName_int]

theorem C5_parse_values_witness :
    parse_values [("538", ⟨"BSH.Common.Status.DoorState", some "read",
        some [("0", "Off"), ("1", "On")], none, none⟩)]
      [.vDict [("uid", .vInt 538), ("value", .vInt 1)]] =
      .ok (.vDict [(trimName "BSH.Common.Status.DoorState",
        match some [("0", "Off"), ("1", "On")] with
        | some enum =>
          (match List.lookup (pyStr (.vInt 1)) enum with
           | some lbl => PyVal.vStr lbl
           | none => PyVal.vInt 1)
        | none => PyVal.vInt 1)]) :=
  (C5_parse_values [("538", ⟨"BSH.Common.Status.DoorState", some "read",
      some [("0", "Off"), ("1", "On")], none, none⟩)]
    ⟨"BSH.Common.Status.DoorState", some "read", some [("0", "Off"), ("1", "On")],
      none, none⟩ 538 (.vInt 1)).1 (by simp) rfl

/-- C10: value-write validation decides that a range constraint exists
solely from the presence of `min` and then reads `max` unconditionally: a
record that passes the uid/value/catalog/access/enumeration stages but
whose descriptor declares `min` without `max` fails with a `KeyError` for
`"max"` — a key-lookup error, not the validation `Exception` carrying a
human-readable reason. -/
theorem C10_min_without_max (features : List (String × Feature))
    (kvs : List (String × PyVal)) (rest : List PyVal) (u v : PyVal) (f : Feature)
    (a : String) (mn : Int)
    (hu : List.lookup "uid" kvs = some u) (hui : pyIsInt u = true)
    (hv : List.lookup "value" kvs = some v)
    (hf : List.lookup (pyStr u) features = some f)
    (ha : f.access = some a)
    (ha2 : strLower a = "readwrite" ∨ strLower a = "writeonly")
    (henum : match f.values with
             | none => True
             | some enum => pyIsInt v = true ∧ (List.lookup (pyStr v) enum).isSome = true)
    (hmn : f.min = some mn) (hmx : f.max = none) :
    test_feature features (.vDict kvs :: rest) = .error (.keyError "max") ∧
    ∀ s, (Except.error (PyErr.keyError "max") : Except PyErr Unit) ≠ .error (.exc s) := by
  constructor
  · have h1 : test_feature_one features (.vDict kvs) = .error (.keyError "max") := by
      unfold test_feature_one
      simp only [pyContains, pyGetItem, hu, hv, hf, ha, hmn, hmx, hui, Option.isSome_some]
      have hacc : ¬(strLower a ≠ "readwrite" ∧ strLower a ≠ "writeonly") := by
        rcases ha2 with h | h <;> simp [h]
      rw [if_neg hacc]
      rcases henv : f.values with _ | enum
      · simp [henv]
      · rw [henv] at henum
        rcases henum with ⟨hvi, hvl⟩
        simp [henv, hv, hvi, hvl]
    rw [test_feature, h1]
  · intro s h
    cases h

theorem C10_min_without_max_witness :
    test_feature [("7", ⟨"A.B", some "readWrite", none, some 0, none⟩)]
      [.vDict [("uid", .vInt 7), ("value", .vInt 5)]] = .error (.keyError "max") :=
  (C10_min_without_max [("7", ⟨"A.B", some "readWrite", none, some 0, none⟩)]
    [("uid", .vInt 7), ("value", .vInt 5)] [] (.vInt 7) (.vInt 5)
    ⟨"A.B", some "readWrite", none, some 0, none⟩ "readWrite" 0
    rfl rfl rfl rfl rfl (Or.inl rfl) trivial rfl rfl).1

lemma test_feature_one_ok_iff (features : List (String × Feature))
    (hwf : ∀ p ∈ features, p.2.min.isSome → p.2.max.isSome) (d : PyVal) :
    test_feature_one features d = .ok () ↔ specAcceptsValueWrite features d = true := by
  cases d with
  | vInt n => simp [test_feature_one, pyContains, specAcceptsValueWrite]
  | vBool b => simp [test_feature_one, pyContains, specAcceptsValueWrite]
  | vNone => simp [test_feature_one, pyContains, specAcceptsValueWrite]
  | vList l =>
    cases hc : l.any (fun x => pyEqStr x "uid") <;>
      simp [test_feature_one, pyContains, pyGetItem, specAcceptsValueWrite, hc]
  | vStr s =>
    cases hc : strContains s "uid" <;>
      simp [test_feature_one, pyContains, pyGetItem, specAcceptsValueWrite, hc]
  | vDict kvs =>
    cases hu : List.lookup "uid" kvs with
    | none => simp [test_feature_one, pyContains, specAcceptsValueWrite, hu]
    | some u =>
      cases hv : List.lookup "value" kvs with
      | none =>
        cases hui : pyIsInt u <;>
          simp [test_feature_one, pyContains, pyGetItem, specAcceptsValueWrite, hu, hv, hui]
      | some v =>
        cases hui : pyIsInt u with
        | false =>
          simp [test_feature_one, pyContains, pyGetItem, specAcceptsValueWrite, hu, hv, hui]
        | true =>
          cases hf : List.lookup (pyStr u) features with
          | none =>
            simp [test_feature_one, pyContains, pyGetItem, specAcceptsValueWrite,
              hu, hv, hui, hf]
          | some f =>
            cases ha : f.access with
            | none =>
              simp [test_feature_one, pyContains, pyGetItem, specAcceptsValueWrite,
                hu, hv, hui, hf, ha]
            | some a =>
              by_cases hacc : strLower a = "readwrite" ∨ strLower a = "writeonly"
              case neg =>
                have hacc' : strLower a ≠ "readwrite" ∧ strLower a ≠ "writeonly" := by
                  constructor <;> intro hh <;> exact hacc (by simp [hh])
                simp [test_feature_one, pyContains, pyGetItem, specAcceptsValueWrite,
                  hu, hv, hui, hf, ha, hacc', hacc'.1, hacc'.2]
              case pos =>
                have haccn : ¬(strLower a ≠ "readwrite" ∧ strLower a ≠ "writeonly") := by
                  rcases hacc with h | h <;> simp [h]
                have haccb : (strLower a == "readwrite" || strLower a == "writeonly") = true := by
                  rcases hacc with h | h <;> simp [h]
                cases hen : f.values with
                | some enum =>
                  cases hvi : pyIsInt v with
                  | false =>
                    simp [test_feature_one, pyContains, pyGetItem, specAcceptsValueWrite,
                      hu, hv, hui, hf, ha, haccn, haccb, hen, hvi]
                  | true =>
                    cases hvl : List.lookup (pyStr v) enum with
                    | none =>
                      simp [test_feature_one, pyContains, pyGetItem, specAcceptsValueWrite,
                        hu, hv, hui, hf, ha, haccn, haccb, hen, hvi, hvl]
                    | some lbl =>
                      cases hmn : f.min with
                      | none =>
                        simp [test_feature_one, pyContains, pyGetItem, specAcceptsValueWrite,
                          hu, hv, hui, hf, ha, haccn, haccb, hen, hvi, hvl, hmn]
                      | some mn =>
                        have hmx' : f.max.isSome := hwf _ (lookup_mem hf) (by simp [hmn])
                        rcases hmxe : f.max with _ | mx
                        · rw [hmxe] at hmx'
                          cases hmx'
                        · rcases hk : pyIntVal v with _ | k
                          · rcases v with hh | b | hh | hh | hh | hh <;>
                              simp [pyIsInt] at hvi <;> simp [pyIntVal] at hk
                          · by_cases hrange : mn ≤ k ∧ k ≤ mx
                            · have hr2 : ¬(k < mn ∨ k > mx) := by omega
                              simp [test_feature_one, pyContains, pyGetItem,
                                specAcceptsValueWrite, hu, hv, hui, hf, ha, haccn, haccb,
                                hen, hvi, hvl, hmn, hmxe, hk, hr2, hrange.1, hrange.2]
                            · have hr2 : k < mn ∨ k > mx := by omega
                              simp [test_feature_one, pyContains, pyGetItem,
                                specAcceptsValueWrite, hu, hv, hui, hf, ha, haccn, haccb,
                                hen, hvi, hvl, hmn, hmxe, hk, hr2]
                              omega
                | none =>
                  cases hmn : f.min with
                  | none =>
                    simp [test_feature_one, pyContains, pyGetItem, specAcceptsValueWrite,
                      hu, hv, hui, hf, ha, haccn, haccb, hen, hmn]
                  | some mn =>
                    have hmx' : f.max.isSome := hwf _ (lookup_mem hf) (by simp [hmn])
                    rcases hmxe : f.max with _ | mx
                    · rw [hmxe] at hmx'
                      cases hmx'
                    · rcases hk : pyIntVal v with _ | k
                      · have hvi : pyIsInt v = false := by
                          rcases v with hh | b | hh | hh | hh | hh <;>
                            simp [pyIntVal] at hk <;> simp [pyIsInt]
                        simp [test_feature_one, pyContains, pyGetItem, specAcceptsValueWrite,
                          hu, hv, hui, hf, ha, haccn, haccb, hen, hmn, hmxe, hk, hvi]
                      · by_cases hrange : mn ≤ k ∧ k ≤ mx
                        · have hr2 : ¬(k < mn ∨ k > mx) := by omega
                          simp [test_feature_one, pyContains, pyGetItem,
                            specAcceptsValueWrite, hu, hv, hui, hf, ha, haccn, haccb,
                            hen, hmn, hmxe, hk, hr2, hrange.1, hrange.2]
                        · have hr2 : k < mn ∨ k > mx := by omega
                          simp [test_feature_one, pyContains, pyGetItem,
                            specAcceptsValueWrite, hu, hv, hui, hf, ha, haccn, haccb,
                            hen, hmn, hmxe, hk, hr2]
                          omega

lemma checkOptions_ok_iff (features : List (String × Feature)) (l : List PyVal) :
    checkOptions features l = .ok () ↔ l.all (specOptionOk features) = true := by
  induction l with
  | nil => simp [checkOptions]
  | cons o rest ih =>
    cases o with
    | vDict okvs =>
      cases ho : List.lookup "uid" okvs with
      | none => simp [checkOptions, pyGetItem, specOptionOk, ho]
      | some ou =>
        cases hl : (List.lookup (pyStr ou) features).isSome with
        | true => simp [checkOptions, pyGetItem, specOptionOk, ho, hl, ih]
        | false => simp [checkOptions, pyGetItem, specOptionOk, ho, hl]
    | vInt n => simp [checkOptions, pyGetItem, specOptionOk]
    | vBool b => simp [checkOptions, pyGetItem, specOptionOk]
    | vStr s => simp [checkOptions, pyGetItem, specOptionOk]
    | vNone => simp [checkOptions, pyGetItem, specOptionOk]
    | vList l2 => simp [checkOptions, pyGetItem, specOptionOk]

lemma test_program_one_ok_iff (features : List (String × Feature)) (d : PyVal)
    (hop : ∀ kvs o, d = .vDict kvs → List.lookup "options" kvs = some o →
      ∃ l, o = .vList l) :
    test_program_one features d = .ok () ↔ specProgramRecordOk features d = true := by
  cases d with
  | vInt n => simp [test_program_one, pyContains, specProgramRecordOk]
  | vBool b => simp [test_program_one, pyContains, specProgramRecordOk]
  | vNone => simp [test_program_one, pyContains, specProgramRecordOk]
  | vList l =>
    cases hc : l.any (fun x => pyEqStr x "program") <;>
      simp [test_program_one, pyContains, pyGetItem, specProgramRecordOk, hc]
  | vStr s =>
    cases hc : strContains s "program" <;>
      simp [test_program_one, pyContains, pyGetItem, specProgramRecordOk, hc]
  | vDict kvs =>
    cases hp : List.lookup "program" kvs with
    | none => simp [test_program_one, pyContains, specProgramRecordOk, hp]
    | some p =>
      cases hpi : pyIsInt p with
      | false =>
        simp [test_program_one, pyContains, pyGetItem, specProgramRecordOk, hp, hpi]
      | true =>
        cases hf : List.lookup (pyStr p) features with
        | none =>
          simp [test_program_one, pyContains, pyGetItem, specProgramRecordOk, hp, hpi, hf]
        | some f =>
          cases hm : strContains f.name ".Program." with
          | false =>
            simp [test_program_one, pyContains, pyGetItem, specProgramRecordOk,
              hp, hpi, hf, hm]
          | true =>
            cases ho : List.lookup "options" kvs with
            | none =>
              simp [test_program_one, pyContains, pyGetItem, specProgramRecordOk,
                hp, hpi, hf, hm, ho]
            | some o =>
              rcases hop kvs o rfl ho with ⟨l, rfl⟩
              simp [test_program_one, pyContains, pyGetItem, specProgramRecordOk,
                hp, hpi, hf, hm, ho, checkOptions_ok_iff]

lemma test_program_data_ok_iff (features : List (String × Feature)) (batch : List PyVal)
    (hopts : ∀ d ∈ batch, ∀ kvs o, d = PyVal.vDict kvs →
      List.lookup "options" kvs = some o → ∃ l, o = PyVal.vList l) :
    test_program_data features batch = .ok () ↔
      ∀ d ∈ batch, specProgramRecordOk features d = true := by
  induction batch with
  | nil => simp [test_program_data]
  | cons d rest ih =>
    have hopd : ∀ kvs o, d = PyVal.vDict kvs → List.lookup "options" kvs = some o →
        ∃ l, o = PyVal.vList l :=
      fun kvs o h1 h2 => hopts d (List.mem_cons_self d rest) kvs o h1 h2
    have hoprest : ∀ d' ∈ rest, ∀ kvs o, d' = PyVal.vDict kvs →
        List.lookup "options" kvs = some o → ∃ l, o = PyVal.vList l :=
      fun d' hd' kvs o h1 h2 => hopts d' (List.mem_cons_of_mem d hd') kvs o h1 h2
    rw [test_program_data]
    cases h1 : test_program_one features d with
    | error e =>
      have hnd : specProgramRecordOk features d ≠ true := by
        intro hh
        have h2 := (test_program_one_ok_iff features d hopd).mpr hh
        rw [h1] at h2
        exact Except.noConfusion h2
      simp [hnd]
    | ok u =>
      cases u
      have hd : specProgramRecordOk features d = true :=
        (test_program_one_ok_iff features d hopd).mp h1
      simp [hd, ih hoprest]

lemma test_feature_ok_iff (features : List (String × Feature))
    (hwf : ∀ p ∈ features, p.2.min.isSome → p.2.max.isSome) (batch : List PyVal) :
    test_feature features batch = .ok () ↔
      ∀ d ∈ batch, specAcceptsValueWrite features d = true := by
  induction batch with
  | nil => simp [test_feature]
  | cons d rest ih =>
    rw [test_feature]
    cases h1 : test_feature_one features d with
    | error e =>
      have hnd : specAcceptsValueWrite features d ≠ true := by
        intro hh
        have h2 := (test_feature_one_ok_iff features hwf d).mpr hh
        rw [h1] at h2
        exact Except.noConfusion h2
      simp [hnd]
    | ok u =>
      cases u
      have hd : specAcceptsValueWrite features d = true :=
        (test_feature_one_ok_iff features hwf d).mp h1
      simp [hd, ih]

/-- C3: over a catalog whose descriptors declare `max` whenever they
declare `min` (the shape the range check needs, see the `min`/`max`
asymmetry handled separately), value-write validation accepts a batch
exactly when every record satisfies the claim's acceptance condition
(`specAcceptsValueWrite`), and a validation failure inside `get`'s POST to
`/ro/values` propagates the exception to the caller with the session state
unchanged and nothing passed to the transport. -/
theorem C3_value_write_validation (features : List (String × Feature)) (st : HCState)
    (batch : List PyVal) (ver : PyVal) (sr : Bool)
    (hwf : ∀ p ∈ features, p.2.min.isSome → p.2.max.isSome)
    (hfeat : st.features = features) :
    (test_feature features batch = .ok () ↔
      ∀ d ∈ batch, specAcceptsValueWrite features d = true) ∧
    (∀ e, test_feature features batch = .error e →
      get st "/ro/values" ver "POST" (some (.vList batch)) sr = (st, [], some e)) := by
  constructor
  · exact test_feature_ok_iff features hwf batch
  · intro e he
    unfold get
    dsimp only [pyAsList]
    rw [hfeat, validatePayload_values, he]

theorem C3_value_write_validation_witness :
    (test_feature [("531", ⟨"BSH.Common.Setting.Power", some "readWrite", none,
        some 0, some 100⟩)] [.vDict [("uid", .vInt 531), ("value", .vInt 50)]] = .ok () ↔
      ∀ d ∈ [PyVal.vDict [("uid", .vInt 531), ("value", .vInt 50)]],
        specAcceptsValueWrite [("531", ⟨"BSH.Common.Setting.Power", some "readWrite", none,
          some 0, some 100⟩)] d = true) ∧
    get (initState [("531", ⟨"BSH.Common.Setting.Power", some "readWrite", none,
        some 0, some 100⟩)]) "/ro/values" (.vInt 1) "POST"
      (some (.vList [.vDict [("uid", .vInt 531), ("value", .vInt 150)]])) false =
      (initState [("531", ⟨"BSH.Common.Setting.Power", some "readWrite", none,
        some 0, some 100⟩)], [],
       some (.exc ("Unable to configure appliance. Value 150 is not a valid value. " ++
         "The value must be an integer in the range 0 and 100."))) :=
  ⟨(C3_value_write_validation [("531", ⟨"BSH.Common.Setting.Power", some "readWrite", none,
      some 0, some 100⟩)]
      (initState [("531", ⟨"BSH.Common.Setting.Power", some "readWrite", none,
        some 0, some 100⟩)])
      [.vDict [("uid", .vInt 531), ("value", .vInt 50)]] (.vInt 1) false
      (by intro p hp; simp at hp; simp [hp]) rfl).1,
   (C3_value_write_validation [("531", ⟨"BSH.Common.Setting.Power", some "readWrite", none,
      some 0, some 100⟩)]
      (initState [("531", ⟨"BSH.Common.Setting.Power", some "readWrite", none,
        some 0, some 100⟩)])
      [.vDict [("uid", .vInt 531), ("value", .vInt 150)]] (.vInt 1) false
      (by intro p hp; simp at hp; simp [hp]) rfl).2 _ rfl⟩

/-- C6: program-activation validation accepts a batch (whose present
options fields are lists, as the claim's wording assumes) exactly when
every record has an integer-typed `program` id resolving to a catalog
entry whose display name contains the `".Program."` marker and every
option's uid resolves in the catalog; `specProgramRecordOk` applies no
access-level or range check to options. -/
theorem C6_program_validation (features : List (String × Feature)) (batch : List PyVal)
    (hopts : ∀ d ∈ batch, ∀ kvs o, d = PyVal.vDict kvs →
      List.lookup "options" kvs = some o → ∃ l, o = PyVal.vList l) :
    test_program_data features batch = .ok () ↔
      ∀ d ∈ batch, specProgramRecordOk features d = true :=
  test_program_data_ok_iff features batch hopts

theorem C6_program_validation_witness :
    test_program_data [("9000", ⟨"Dishcare.Dishwasher.Program.Eco50", some "readWrite",
        none, none, none⟩), ("9001", ⟨"BSH.Common.Option.StartInRelative", some "readWrite",
        none, none, none⟩)]
      [.vDict [("program", .vInt 9000),
        ("options", .vList [.vDict [("uid", .vInt 9001), ("value", .vInt 60)]])]] = .ok () ↔
    ∀ d ∈ [PyVal.vDict [("program", .vInt 9000),
        ("options", .vList [.vDict [("uid", .vInt 9001), ("value", .vInt 60)]])]],
      specProgramRecordOk [("9000", ⟨"Dishcare.Dishwasher.Program.Eco50", some "readWrite",
        none, none, none⟩), ("9001", ⟨"BSH.Common.Option.StartInRelative", some "readWrite",
        none, none, none⟩)] d = true :=
  C6_program_validation _ _ (by
    intro d hd kvs o h1 h2
    simp at hd
    subst hd
    cases h1
    simp [List.lookup] at h2
    exact ⟨_, h2.symm⟩)

end HC
